import Mathlib

/-!
Verification of the katcp-python client core against its specification.

The wire codec (`Message.__str__`, `MessageParser`) is embedded from
`src/katcp/katcp.py`; the connection engine and the correlators are embedded
from `src/katcp/client.py`.  Byte strings (Python 2 `str`) are modelled as
`List Nat` of byte values; client-level message names and arguments are
modelled as Lean `String`s where byte-level detail is irrelevant.
-/

namespace Katcp

/-- Message types, from `Message.REQUEST, REPLY, INFORM = range(3)`. -/
inductive MType where
  | request
  | reply
  | inform
deriving DecidableEq, Repr

/-- `Message.TYPE_SYMBOLS`: request `?` (63), reply `!` (33), inform `#` (35). -/
def typeSymbol : MType → Nat
  | .request => 63
  | .reply => 33
  | .inform => 35

/-- `Message.TYPE_SYMBOL_LOOKUP`: inverse of `TYPE_SYMBOLS`. -/
def symbolType (b : Nat) : Option MType :=
  if b = 63 then some .request
  else if b = 33 then some .reply
  else if b = 35 then some .inform
  else none

/-- `Message.ESCAPE_LOOKUP`: continuation byte of a two-byte escape to the byte
it denotes (backslash, space, `0`, `n`, `r`, `e`, `t`). -/
def escapeLookup (c : Nat) : Option Nat :=
  if c = 92 then some 92
  else if c = 32 then some 32
  else if c = 48 then some 0
  else if c = 110 then some 10
  else if c = 114 then some 13
  else if c = 101 then some 27
  else if c = 116 then some 9
  else none

/-- `Message.REVERSE_ESCAPE_LOOKUP`: special byte to the continuation byte of
its escape.  Only ever applied to bytes matched by `ESCAPE_RE`. -/
def reverseEscape (b : Nat) : Nat :=
  if b = 92 then 92
  else if b = 32 then 32
  else if b = 0 then 48
  else if b = 10 then 110
  else if b = 13 then 114
  else if b = 27 then 101
  else 116

/-- `MessageParser.SPECIAL` (also the set matched by `Message.ESCAPE_RE`):
space, tab, ESC, LF, CR, backslash, NUL. -/
def isSpecial (b : Nat) : Bool :=
  b = 32 || b = 9 || b = 27 || b = 10 || b = 13 || b = 92 || b = 0

/-- The `Message` value of `src/katcp/katcp.py` (type, name, arguments). -/
structure Message where
  mtype : MType
  name : List Nat
  arguments : List (List Nat)
deriving DecidableEq, Repr

/-- Escaping of one argument inside `Message.__str__`: every byte matched by
`ESCAPE_RE` is replaced by a backslash followed by its reverse-escape byte. -/
def escapeArg : List Nat → List Nat
  | [] => []
  | b :: r => (if isSpecial b then [92, reverseEscape b] else [b]) ++ escapeArg r

/-- `" ".join(...)` over already-escaped arguments. -/
def joinSpace : List (List Nat) → List Nat
  | [] => []
  | [a] => a
  | a :: b :: r => a ++ 32 :: joinSpace (b :: r)

/-- `Message.__str__`: type symbol, then the name verbatim, then (when any
arguments are present) a space and the space-joined escaped arguments. -/
def serialize (m : Message) : List Nat :=
  typeSymbol m.mtype :: m.name ++
    (match m.arguments with
     | [] => []
     | a :: r => 32 :: joinSpace ((a :: r).map escapeArg))

deriving instance DecidableEq for Except

/-- Errors escaping from `MessageParser.parse`.  `dclSyntax` is the
`DclSyntaxError` the parser raises deliberately; `stopIteration` is the
Python 2 `StopIteration` that escapes from `_parse_arguments` when
`tail_iter.next()` is called on an exhausted iterator (a backslash as the
final byte of the line): a `StopIteration` raised in the body of a `for`
loop is not caught by the loop. -/
inductive ParseErr where
  | dclSyntax
  | stopIteration
deriving DecidableEq, Repr

/-- The character loop of `MessageParser._parse_arguments`: `arg` is the
argument being accumulated, `acc` the completed arguments. -/
def parseArgsLoop : List Nat → List Nat → List (List Nat) →
    Except ParseErr (List (List Nat))
  | [], arg, acc => .ok (acc ++ [arg])
  | c :: rest, arg, acc =>
    if c = 92 then
      match rest with
      | [] => .error .stopIteration
      | k :: rest' =>
        match escapeLookup k with
        | some v => parseArgsLoop rest' (arg ++ [v]) acc
        | none => .error .dclSyntax
    else if c = 32 then
      parseArgsLoop rest [] (acc ++ [arg])
    else if isSpecial c then
      .error .dclSyntax
    else
      parseArgsLoop rest (arg ++ [c]) acc

/-- `MessageParser._parse_arguments`: no separating space means no arguments;
otherwise run the character loop over the tail. -/
def parseArguments (sep : Bool) (tail : List Nat) :
    Except ParseErr (List (List Nat)) :=
  if sep then parseArgsLoop tail [] [] else .ok []

/-- `line.partition(" ")`: the bytes before the first space, whether a space
was found, and the bytes after it. -/
def partitionSpace : List Nat → List Nat × Bool × List Nat
  | [] => ([], false, [])
  | c :: r =>
    if c = 32 then ([], true, r)
    else
      let p := partitionSpace r
      (c :: p.1, p.2.1, p.2.2)

/-- Python 2 `str.isalpha` on a single byte (ASCII letters). -/
def isAlphaByte (b : Nat) : Bool :=
  (65 ≤ b && b ≤ 90) || (97 ≤ b && b ≤ 122)

/-- Python 2 `str.isalnum` on a single byte (ASCII letters and digits). -/
def isAlnumByte (b : Nat) : Bool :=
  isAlphaByte b || (48 ≤ b && b ≤ 57)

/-- `MessageParser.parse`: split off the first token, check the type symbol
and the command name (`name.replace("-","").isalnum()` — which in Python is
false for the empty string — and `name[0].isalpha()`), then parse the
arguments from the tail. -/
def parse (line : List Nat) : Except ParseErr Message :=
  let p := partitionSpace line
  match p.1 with
  | [] => .error .dclSyntax
  | tc :: nameBytes =>
    match symbolType tc with
    | none => .error .dclSyntax
    | some mtype =>
      match nameBytes with
      | [] => .error .dclSyntax
      | n0 :: _ =>
        let stripped := nameBytes.filter (fun b => b ≠ 45)
        if stripped = [] then .error .dclSyntax
        else if ¬ stripped.all isAlnumByte then .error .dclSyntax
        else if ¬ isAlphaByte n0 then .error .dclSyntax
        else (parseArguments p.2.1 p.2.2).map (fun args => ⟨mtype, nameBytes, args⟩)

/-- Bytes the argument loop passes over without consuming a second byte:
separators and plain (non-special) bytes. -/
def plainTail (p : List Nat) : Bool :=
  p.all (fun c => c = 32 || !isSpecial c)

/-- Well-formed message name as the claims state it: `[A-Za-z][A-Za-z0-9-]*`. -/
def wellFormedName (name : List Nat) : Bool :=
  match name with
  | [] => false
  | n0 :: rest => isAlphaByte n0 && rest.all (fun b => isAlnumByte b || b = 45)

/-- Modelled from the spec: the client-level Message of the `katcp.core`
module used by `src/katcp/client.py` (the `core` module itself is not in the
source tree).  Per the data model it is a triple of type, name and arguments
together with an optional message identifier that is not mixed into the
arguments. -/
structure KMessage where
  mtype : MType
  name : String
  arguments : List String
  mid : Option String
deriving DecidableEq, Repr

/-- Modelled from the spec: the library surface constructor for request
messages, taking a name and arguments (no MID unless set afterwards). -/
def KMessage.request (name : String) (args : List String) : KMessage :=
  ⟨.request, name, args, none⟩

/-- Modelled from the spec: the library surface constructor for reply
messages, taking a name and arguments. -/
def KMessage.reply (name : String) (args : List String) : KMessage :=
  ⟨.reply, name, args, none⟩

/-- The client-side error classes `KatcpClientError` and
`KatcpVersionError` imported by `src/katcp/client.py`. -/
inductive KatcpErr where
  | clientError
  | versionError
deriving DecidableEq, Repr

/-- `self._server_supports_ids` as initialized in `DeviceClient.__init__`:
false until a katcp-protocol version-connect inform is processed. -/
def initServerSupportsIds : Bool := false

/-- `DeviceClient.request`: resolve `use_mid` (defaulting to
`_server_supports_ids`), assign the next message id when `use_mid` holds and
the message has none, raise `KatcpVersionError` when the message carries a
MID while the server does not support them, and otherwise hand the message
to `send_message`.  The `ok` value is the MID with which the message is
sent; an `error` means nothing was sent. -/
def deviceRequest (serverSupportsIds : Bool) (useMid : Option Bool)
    (msgMid : Option String) (nextId : String) :
    Except KatcpErr (Option String) :=
  let u := useMid.getD serverSupportsIds
  let mid := if u then some (msgMid.getD nextId) else msgMid
  if ¬ serverSupportsIds ∧ mid ≠ none then .error .versionError
  else .ok mid

/-- Lookup in a Python dict modelled as an association list with unique
keys. -/
def alistLookup {κ α : Type} [DecidableEq κ] (k : κ) :
    List (κ × α) → Option α
  | [] => none
  | p :: r => if p.1 = k then some p.2 else alistLookup k r

/-- Key assignment on a dict modelled as an association list: overwrite the
existing binding or append a new one. -/
def alistInsert {κ α : Type} [DecidableEq κ] (k : κ) (v : α) :
    List (κ × α) → List (κ × α)
  | [] => [(k, v)]
  | p :: r => if p.1 = k then (k, v) :: r else p :: alistInsert k v r

/-- Key deletion on a dict modelled as an association list. -/
def alistErase {κ α : Type} [DecidableEq κ] (k : κ) :
    List (κ × α) → List (κ × α)
  | [] => []
  | p :: r => if p.1 = k then r else p :: alistErase k r

/-- Python `list.remove(x)`: drop the first occurrence.  The code only calls
it with the element present; on a list without the element — where Python
would raise ValueError — this model returns the list unchanged. -/
def listRemoveFirst {α : Type} [DecidableEq α] (x : α) : List α → List α
  | [] => []
  | y :: r => if y = x then r else y :: listRemoveFirst x r

/-- One value of `CallbackClient._async_queue`: the tuple
`(request, reply_cb, inform_cb, user_data, timer)`.  Callbacks are modelled
by identifiers (`none` when the caller passed no callback); the timer is
modelled by its interval in seconds (`none` when no timer was created). -/
structure PendingEntry where
  request : KMessage
  replyCb : Option Nat
  informCb : Option Nat
  userData : Option (List String)
  timerInterval : Option ℚ
deriving DecidableEq, Repr

/-- The pending-request state of `CallbackClient`: `_async_queue` (message
id to callback tuple) and `_async_id_stack` (request name to the list of
message ids, oldest first). -/
structure AsyncState where
  queue : List (Option String × PendingEntry)
  idStack : List (String × List (Option String))
deriving DecidableEq, Repr

/-- `CallbackClient._msg_id_for_name`: the first element of
`_async_id_stack[msg_name]` when that stack exists and is non-empty, and the
Python value `None` otherwise.  The returned element may itself be `None`
(for a request sent without a MID) — the two cases are indistinguishable to
the caller, exactly as in the source. -/
def msgIdForName (msgName : Option String) (st : AsyncState) : Option String :=
  match msgName with
  | none => none
  | some n =>
    match alistLookup n st.idStack with
    | some (h :: _) => h
    | _ => none

/-- `CallbackClient._push_async_request`: store the callback tuple under the
message id and append the id to the stack of the request name. -/
def pushAsyncRequest (msgId : Option String) (entry : PendingEntry)
    (st : AsyncState) : AsyncState :=
  { queue := alistInsert msgId entry st.queue
    idStack :=
      match alistLookup entry.request.name st.idStack with
      | some l => alistInsert entry.request.name (l ++ [msgId]) st.idStack
      | none => alistInsert entry.request.name [msgId] st.idStack }

/-- `CallbackClient._pop_async_request`: resolve a `None` message id through
`_msg_id_for_name`, then remove and return the queue entry, dropping the id
from the stack of the entry's request name. -/
def popAsyncRequest (msgId msgName : Option String) (st : AsyncState) :
    Option PendingEntry × AsyncState :=
  let key := match msgId with
    | none => msgIdForName msgName st
    | some m => some m
  match alistLookup key st.queue with
  | some entry =>
    (some entry,
      { queue := alistErase key st.queue
        idStack :=
          match alistLookup entry.request.name st.idStack with
          | some l =>
            alistInsert entry.request.name (listRemoveFirst key l) st.idStack
          | none => st.idStack })
  | none => (none, st)

/-- `CallbackClient._peek_async_request`: as the pop, but without removing
anything. -/
def peekAsyncRequest (msgId msgName : Option String) (st : AsyncState) :
    Option PendingEntry :=
  let key := match msgId with
    | none => msgIdForName msgName st
    | some m => some m
  alistLookup key st.queue

/-- Destination of a reply inside `CallbackClient.handle_reply`: either the
`reply_cb` of a popped pending request, or the base-class
`DeviceClient.handle_reply` fallback. -/
inductive ReplyRoute where
  | callback (cb : Nat)
  | base
deriving DecidableEq, Repr

/-- `CallbackClient.handle_reply`: a reply with a MID pops the entry stored
under that MID; a reply without a MID peeks at the entry found through the
head of the per-name stack and pops it only when that stored request was
itself sent without a MID; in every other case — including a popped entry
without a `reply_cb` — the reply goes to the base-class handler. -/
def handleReply (msg : KMessage) (st : AsyncState) : ReplyRoute × AsyncState :=
  match msg.mid with
  | some _ =>
    let r := popAsyncRequest msg.mid none st
    match r.1 with
    | some e =>
      match e.replyCb with
      | some cb => (.callback cb, r.2)
      | none => (.base, r.2)
    | none => (.base, r.2)
  | none =>
    match peekAsyncRequest none (some msg.name) st with
    | some e =>
      if e.request.mid = none then
        let r := popAsyncRequest none (some msg.name) st
        match r.1 with
        | some e' =>
          match e'.replyCb with
          | some cb => (.callback cb, r.2)
          | none => (.base, r.2)
        | none => (.base, r.2)
      else (.base, st)
    | none => (.base, st)

/-- Zero-pad a digit string on the left to six characters. -/
def padSixZeros (s : String) : String :=
  String.mk (List.replicate (6 - s.length) '0') ++ s

/-- Python `"%f" % x`: fixed-point rendering with six digits after the
decimal point (for the non-negative intervals at issue): the integer nearest
to a million times the value — the floor of `q * 1000000 + 1/2`, computed on
the numerator and denominator — split into whole and fractional digits.  The
timer interval is modelled as a rational; for the value in the claims,
`0.05`, the binary double rounds to the same six-digit rendering as
`1/20`. -/
def formatF (q : ℚ) : String :=
  let n : Int := Int.fdiv (2 * (q.num * 1000000) + q.den) (2 * q.den)
  toString (n / 1000000) ++ "." ++ padSixZeros (toString (n % 1000000))

/-- `CallbackClient._do_fail_callback`: nothing is delivered when the
request had no `reply_cb`; otherwise the REPLY-typed message
`Message.reply(msg.name, "fail", reason)` is delivered to it. -/
def doFailCallback (reason : String) (e : PendingEntry) :
    Option (Nat × KMessage) :=
  match e.replyCb with
  | none => none
  | some cb => some (cb, KMessage.reply e.request.name ["fail", reason])

/-- `CallbackClient._handle_timeout`: pop the entry for the message id; bail
out when the pop raced with the reply handler (the popped timer is the
Python value `None`); otherwise deliver the synthetic failure built with
the reason string rendered from `timer.interval` by the percent-f format. -/
def handleTimeout (msgId : Option String) (st : AsyncState) :
    Option (Nat × KMessage) × AsyncState :=
  let r := popAsyncRequest msgId none st
  match r.1 with
  | none => (none, r.2)
  | some e =>
    match e.timerInterval with
    | none => (none, r.2)
    | some iv =>
      (doFailCallback ("Timed out after " ++ formatF iv ++ " seconds") e, r.2)

/-- The send-failure path of `CallbackClient.request`: when the inherited
request raises `KatcpClientError`, the code builds the synthetic message
with the REQUEST-typed constructor (`Message.request(msg.name, "fail",
str(e))`), copies the MID onto it, pushes the pending entry, and finally
feeds the synthetic message to `handle_reply`, which delivers it to
`reply_cb`.  Returns the route taken, the synthetic message delivered, and
the final state. -/
def requestClientError (msg : KMessage) (replyCb informCb : Option Nat)
    (userData : Option (List String)) (timeout : Option ℚ) (errStr : String)
    (st : AsyncState) : (ReplyRoute × KMessage) × AsyncState :=
  let errorReply : KMessage :=
    { mtype := .request, name := msg.name
      arguments := ["fail", errStr], mid := msg.mid }
  let st1 := pushAsyncRequest msg.mid
    ⟨msg, replyCb, informCb, userData, timeout⟩ st
  let r := handleReply errorReply st1
  ((r.1, errorReply), r.2)

/-- Well-formedness of the pending tables, maintained by the code: every
queue entry is stored under its own request's MID (the push uses `msg.mid`
as the key and stores `msg` as the request), and queue keys are unique
(Python dict). -/
def wfAsync (st : AsyncState) : Prop :=
  (∀ p ∈ st.queue, p.2.request.mid = p.1) ∧ (st.queue.map Prod.fst).Nodup

/-- The per-request state of `BlockingClient` (`_current_name`,
`_current_msg_id`, `_current_informs`, `_current_reply`, `_request_end`). -/
structure BlockingState where
  currentName : Option String
  currentMsgId : Option String
  currentInforms : List KMessage
  currentReply : Option KMessage
  requestEnd : Bool
deriving DecidableEq, Repr

/-- `BlockingClient._message_matches`: the message matches the current
request iff a MID is recorded and the message carries the same MID, or no
MID is recorded and the message name equals `_current_name` (a Python
string-to-None comparison is false). -/
def messageMatches (st : BlockingState) (msg : KMessage) : Bool :=
  (decide (st.currentMsgId ≠ none) && decide (msg.mid = st.currentMsgId))
  || (decide (st.currentMsgId = none) && decide (st.currentName = some msg.name))

/-- `BlockingClient.handle_reply`: on a match, clear `_current_name`, store
the reply and set the done-signal; otherwise (first component `false`) the
reply goes to the base-class handler. -/
def blockingHandleReply (st : BlockingState) (msg : KMessage) :
    Bool × BlockingState :=
  if messageMatches st msg then
    (true, { st with currentName := none, currentReply := some msg,
                     requestEnd := true })
  else (false, st)

/-- `BlockingClient.handle_inform`: on a match, append to the collected
informs; otherwise the inform goes to the base-class handler. -/
def blockingHandleInform (st : BlockingState) (msg : KMessage) :
    Bool × BlockingState :=
  if messageMatches st msg then
    (true, { st with currentInforms := st.currentInforms ++ [msg] })
  else (false, st)

/-- Outcome of one `sock.send` attempt inside `DeviceClient.send_message`:
an EAGAIN socket error (recording whether `sock is self._sock` still
holds), any other socket error, or a successful send of `n` bytes. -/
inductive SendStep where
  | transient (sockSame : Bool)
  | sockErr
  | sent (n : Nat)
deriving DecidableEq, Repr

/-- Result of the send retry loop.  A failure distinguishes whether the
local name `e` was bound by an `except socket.error, e` clause during this
call: the failure-logging line afterwards formats `e`, so an unbound `e`
matters (Python 2 keeps `e` bound after the except block, but only if some
socket error was caught in this call). -/
inductive SendLoopResult where
  | completed
  | failedBound
  | failedUnbound
  | outOfSteps
deriving DecidableEq, Repr

/-- The retry loop of `DeviceClient.send_message`: EAGAIN on the same socket
retries (binding `e`); EAGAIN after a socket swap or any other socket error
sets `send_failed` with `e` bound; a zero-byte send sets `send_failed` with
`e` still unbound unless an earlier attempt in this call caught a socket
error; a positive send advances `totalsent`.  `outOfSteps` marks runs
longer than the supplied trace of attempt outcomes (the loop itself has no
bound). -/
def sendLoop (datalen : Nat) : List SendStep → Nat → Bool → SendLoopResult
  | steps, totalsent, eBound =>
    if datalen ≤ totalsent then .completed
    else
      match steps with
      | [] => .outOfSteps
      | .transient sockSame :: rest =>
        if sockSame then sendLoop datalen rest totalsent true
        else .failedBound
      | .sockErr :: _ => .failedBound
      | .sent n :: rest =>
        if n = 0 then (if eBound then .failedBound else .failedUnbound)
        else sendLoop datalen rest (totalsent + n) eBound

/-- Errors `send_message` lets escape to its caller:
`KatcpClientError("Client not connected")` from the no-socket check, and
the Python `UnboundLocalError` raised by the failure-logging line when it
formats `e` after a failure in which no socket error was caught. -/
inductive SendErr where
  | clientError
  | unboundLocal
deriving DecidableEq, Repr

/-- What `DeviceClient.send_message` does as observed by its caller. -/
structure SendOutcome where
  raised : Option SendErr
  sendFailed : Bool
  disconnected : Bool
deriving DecidableEq, Repr

/-- `DeviceClient.send_message`: with no socket it raises
`KatcpClientError("Client not connected")`.  Otherwise it runs the send
loop; when the loop records a failure with `e` bound, the failure block
logs an error and calls `_disconnect()`, returning normally; when the
failure left `e` unbound (a zero-byte send with no socket error caught in
this call), the logging line itself raises `UnboundLocalError` before the
log and the disconnect. -/
def sendMessage (connected : Bool) (datalen : Nat) (steps : List SendStep) :
    SendOutcome :=
  if ¬ connected then
    { raised := some .clientError, sendFailed := false, disconnected := false }
  else
    match sendLoop datalen steps 0 false with
    | .failedBound =>
      { raised := none, sendFailed := true, disconnected := true }
    | .failedUnbound =>
      { raised := some .unboundLocal, sendFailed := true, disconnected := false }
    | _ => { raised := none, sendFailed := false, disconnected := false }

/-- One byte of the CR-to-LF normalization in `_handle_chunk`. -/
def normalizeCR (b : Nat) : Nat := if b = 13 then 10 else b

/-- Splitting a byte string on LF: always returns at least one (possibly
empty) piece, like Python split. -/
def splitNL : List Nat → List (List Nat)
  | [] => [[]]
  | b :: r =>
    if b = 10 then [] :: splitNL r
    else
      match splitNL r with
      | [] => [[b]]
      | h :: t => (b :: h) :: t

/-- The line loop of `DeviceClient._handle_chunk`: every piece except the
last is completed (prefixing `_waiting_chunk`, which is consumed by the
first), non-empty complete lines are handed to the parser and dispatcher,
and the final piece is appended to the (now empty) `_waiting_chunk`. -/
def processLines (waiting : List Nat) : List (List Nat) →
    List (List Nat) × List Nat
  | [] => ([], waiting)
  | [last] => ([], waiting ++ last)
  | l :: next :: t =>
    let full := waiting ++ l
    let r := processLines [] (next :: t)
    ((if full = [] then r.1 else full :: r.1), r.2)

/-- `DeviceClient._handle_chunk`: normalize CR to LF, split on LF, run the
line loop.  The first component is the sequence of complete non-empty lines
handed to the parser, the second the new carry-over buffer. -/
def handleChunk (waiting chunk : List Nat) : List (List Nat) × List Nat :=
  processLines waiting (splitNL (chunk.map normalizeCR))

/-- Feeding a sequence of chunks through `_handle_chunk` one at a time,
concatenating the handled lines and threading the carry-over buffer. -/
def processChunks (waiting : List Nat) :
    List (List Nat) → List (List Nat) × List Nat
  | [] => ([], waiting)
  | c :: cs =>
    let r := handleChunk waiting c
    let rest := processChunks r.2 cs
    (r.1 ++ rest.1, rest.2)

/-- One byte of framing: LF or CR completes the current buffer (emitting it
when non-empty), any other byte extends it. -/
def stepByte (s : List (List Nat) × List Nat) (b : Nat) :
    List (List Nat) × List Nat :=
  if b = 10 ∨ b = 13 then
    (s.1 ++ (if s.2 = [] then [] else [s.2]), [])
  else (s.1, s.2 ++ [b])

end Katcp

namespace Katcp

theorem isAlnumByte_ne_space {b : Nat} (h : isAlnumByte b = true) : b ≠ 32 := by
  simp only [isAlnumByte, isAlphaByte, Bool.or_eq_true, Bool.and_eq_true,
    decide_eq_true_eq] at h
  omega

theorem isAlphaByte_ne_dash {b : Nat} (h : isAlphaByte b = true) : b ≠ 45 := by
  simp only [isAlphaByte, Bool.or_eq_true, Bool.and_eq_true,
    decide_eq_true_eq] at h
  omega

theorem isAlphaByte_isAlnumByte {b : Nat} (h : isAlphaByte b = true) :
    isAlnumByte b = true := by
  simp [isAlnumByte, h]

theorem escapeLookup_reverseEscape {b : Nat} (h : isSpecial b = true) :
    escapeLookup (reverseEscape b) = some b := by
  simp only [isSpecial, Bool.or_eq_true, decide_eq_true_eq] at h
  rcases h with ((((((h | h) | h) | h) | h) | h) | h) <;> subst h <;> rfl

theorem not_isSpecial_facts {b : Nat} (h : isSpecial b = false) :
    b ≠ 92 ∧ b ≠ 32 := by
  simp only [isSpecial, Bool.or_eq_false_iff, decide_eq_false_iff_not] at h
  refine ⟨?_, ?_⟩ <;> omega

theorem parseArgsLoop_nil (arg : List Nat) (acc : List (List Nat)) :
    parseArgsLoop [] arg acc = .ok (acc ++ [arg]) := rfl

theorem parseArgsLoop_cons (c : Nat) (rest arg : List Nat)
    (acc : List (List Nat)) :
    parseArgsLoop (c :: rest) arg acc =
      (if c = 92 then
        match rest with
        | [] => .error .stopIteration
        | k :: rest' =>
          match escapeLookup k with
          | some v => parseArgsLoop rest' (arg ++ [v]) acc
          | none => .error .dclSyntax
      else if c = 32 then
        parseArgsLoop rest [] (acc ++ [arg])
      else if isSpecial c then
        .error .dclSyntax
      else
        parseArgsLoop rest (arg ++ [c]) acc) := by
  rw [parseArgsLoop.eq_def]

theorem parseArgsLoop_escapeArg (a : List Nat) :
    ∀ (rest arg : List Nat) (acc : List (List Nat)),
      parseArgsLoop (escapeArg a ++ rest) arg acc =
        parseArgsLoop rest (arg ++ a) acc := by
  induction a with
  | nil => intro rest arg acc; simp [escapeArg]
  | cons b a ih =>
    intro rest arg acc
    by_cases hb : isSpecial b = true
    · have hl := escapeLookup_reverseEscape hb
      simp only [escapeArg, hb, if_true, List.cons_append, List.append_assoc]
      rw [parseArgsLoop_cons]
      simp [hl, ih]
    · have hfacts := not_isSpecial_facts (by simpa using hb)
      simp only [escapeArg, hb, Bool.false_eq_true, if_false, List.cons_append]
      rw [parseArgsLoop_cons]
      rw [if_neg hfacts.1, if_neg hfacts.2, if_neg (by simp [hb])]
      simp only [List.nil_append]
      rw [ih]
      simp [List.append_assoc]

theorem parseArgsLoop_joinSpace (args : List (List Nat)) (hne : args ≠ []) :
    ∀ acc : List (List Nat),
      parseArgsLoop (joinSpace (args.map escapeArg)) [] acc =
        .ok (acc ++ args) := by
  induction args with
  | nil => exact absurd rfl hne
  | cons a r ih =>
    intro acc
    match r with
    | [] =>
      simp only [List.map, joinSpace]
      rw [show escapeArg a = escapeArg a ++ [] by simp,
        parseArgsLoop_escapeArg]
      simp [parseArgsLoop_nil]
    | b :: r' =>
      have hstep : joinSpace ((a :: b :: r').map escapeArg) =
          escapeArg a ++ 32 :: joinSpace ((b :: r').map escapeArg) := rfl
      rw [hstep, parseArgsLoop_escapeArg, parseArgsLoop_cons]
      rw [if_neg (by omega), if_pos rfl]
      simp only [List.nil_append]
      rw [ih (by simp)]
      simp

theorem partitionSpace_no_space (s : List Nat) (h : ∀ b ∈ s, b ≠ 32) :
    partitionSpace s = (s, false, []) := by
  induction s with
  | nil => rfl
  | cons c r ih =>
    rw [partitionSpace]
    rw [if_neg (h c (by simp))]
    rw [ih (fun b hb => h b (by simp [hb]))]

theorem partitionSpace_split (s t : List Nat) (h : ∀ b ∈ s, b ≠ 32) :
    partitionSpace (s ++ 32 :: t) = (s, true, t) := by
  induction s with
  | nil => simp [partitionSpace]
  | cons c r ih =>
    rw [List.cons_append, partitionSpace]
    rw [if_neg (h c (by simp))]
    rw [ih (fun b hb => h b (by simp [hb]))]

theorem symbolType_typeSymbol (t : MType) : symbolType (typeSymbol t) = some t := by
  cases t <;> rfl

theorem typeSymbol_ne_space (t : MType) : typeSymbol t ≠ 32 := by
  cases t <;> decide

theorem wellFormedName_facts {n0 : Nat} {rest : List Nat}
    (h : wellFormedName (n0 :: rest) = true) :
    isAlphaByte n0 = true ∧ (∀ b ∈ n0 :: rest, b ≠ 32) ∧
      (n0 :: rest).filter (fun b => b ≠ 45) ≠ [] ∧
      ((n0 :: rest).filter (fun b => b ≠ 45)).all isAlnumByte = true := by
  simp only [wellFormedName, Bool.and_eq_true, List.all_eq_true,
    Bool.or_eq_true, decide_eq_true_eq] at h
  obtain ⟨ha, hrest⟩ := h
  have hmem : ∀ b ∈ n0 :: rest, isAlnumByte b = true ∨ b = 45 := by
    intro b hb
    rcases List.mem_cons.mp hb with rfl | hb
    · exact Or.inl (isAlphaByte_isAlnumByte ha)
    · exact hrest b hb
  refine ⟨ha, ?_, ?_, ?_⟩
  · intro b hb
    rcases hmem b hb with h' | rfl
    · exact isAlnumByte_ne_space h'
    · omega
  · have : n0 ∈ (n0 :: rest).filter (fun b => b ≠ 45) := by
      apply List.mem_filter.mpr
      exact ⟨by simp, by simpa using isAlphaByte_ne_dash ha⟩
    intro hcon
    rw [hcon] at this
    exact absurd this (List.not_mem_nil n0)
  · apply List.all_eq_true.mpr
    intro b hb
    have hb' := List.mem_filter.mp hb
    rcases hmem b hb'.1 with h' | rfl
    · exact h'
    · simpa using hb'.2

end Katcp

namespace Katcp

/-- C1: Codec round-trip: for every well-formed Message M (name matching
`[A-Za-z][A-Za-z0-9-]*`, arguments an arbitrary list of byte-strings),
parsing the serialized form of M (the str of M, the line terminator having
been stripped by the framer) yields a Message whose type, name and argument
list are byte-for-byte equal to M's. -/
theorem C1_codec_roundtrip (t : MType) (name : List Nat)
    (args : List (List Nat)) (h : wellFormedName name = true) :
    parse (serialize (Message.mk t name args)) = .ok (Message.mk t name args) := by
  match name, h with
  | n0 :: rest, h =>
  obtain ⟨ha, hns, hfne, hfall⟩ := wellFormedName_facts h
  have hnospace : ∀ b ∈ typeSymbol t :: n0 :: rest, b ≠ 32 := by
    intro b hb
    rcases List.mem_cons.mp hb with rfl | hb
    · exact typeSymbol_ne_space t
    · exact hns b hb
  cases args with
  | nil =>
    have hser : serialize (Message.mk t (n0 :: rest) []) =
        typeSymbol t :: n0 :: rest := by
      simp [serialize]
    rw [hser]
    have hpart := partitionSpace_no_space (typeSymbol t :: n0 :: rest) hnospace
    simp only [parse, hpart, symbolType_typeSymbol]
    rw [if_neg hfne, if_neg (not_not_intro hfall), if_neg (not_not_intro ha)]
    rfl
  | cons a r =>
    have hser : serialize (Message.mk t (n0 :: rest) (a :: r)) =
        (typeSymbol t :: n0 :: rest) ++
          32 :: joinSpace ((a :: r).map escapeArg) := by
      simp [serialize]
    rw [hser]
    have hpart := partitionSpace_split (typeSymbol t :: n0 :: rest)
      (joinSpace ((a :: r).map escapeArg)) hnospace
    simp only [parse, hpart, symbolType_typeSymbol]
    rw [if_neg hfne, if_neg (not_not_intro hfall), if_neg (not_not_intro ha)]
    simp only [parseArguments, if_pos rfl]
    rw [parseArgsLoop_joinSpace (a :: r) (by simp) []]
    rfl

/-- Witness for C1: the round-trip theorem applied to the concrete message
with type REQUEST, name a-9 and arguments containing every special byte, an
empty argument and a plain argument. -/
theorem C1_codec_roundtrip_witness :
    wellFormedName [97, 45, 57] = true ∧
      parse (serialize (Message.mk .request [97, 45, 57]
          [[92, 32, 0, 10, 13, 27, 9, 120], [], [65]])) =
        .ok (Message.mk .request [97, 45, 57]
          [[92, 32, 0, 10, 13, 27, 9, 120], [], [65]]) :=
  ⟨by decide, C1_codec_roundtrip .request [97, 45, 57]
    [[92, 32, 0, 10, 13, 27, 9, 120], [], [65]] (by decide)⟩

theorem parseArgsLoop_plain : ∀ p : List Nat, plainTail p = true →
    ∀ (arg : List Nat) (acc : List (List Nat)),
      ∃ (arg' : List Nat) (acc' : List (List Nat)), ∀ s : List Nat,
        parseArgsLoop (p ++ s) arg acc = parseArgsLoop s arg' acc' := by
  intro p
  induction p with
  | nil => exact fun _ arg acc => ⟨arg, acc, fun s => by simp⟩
  | cons c p ih =>
    intro hp arg acc
    simp only [plainTail, List.all_cons, Bool.and_eq_true] at hp
    have hc : c = 32 ∨ isSpecial c = false := by
      rcases Bool.or_eq_true_iff.mp hp.1 with h' | h'
      · exact Or.inl (by simpa using h')
      · exact Or.inr (by simpa using h')
    have hptail : plainTail p = true := hp.2
    rcases hc with rfl | hcf
    · obtain ⟨arg', acc', hrec⟩ := ih hptail [] (acc ++ [arg])
      refine ⟨arg', acc', fun s => ?_⟩
      rw [List.cons_append, parseArgsLoop_cons, if_neg (by omega), if_pos rfl]
      exact hrec s
    · have hfacts := not_isSpecial_facts hcf
      obtain ⟨arg', acc', hrec⟩ := ih hptail (arg ++ [c]) acc
      refine ⟨arg', acc', fun s => ?_⟩
      rw [List.cons_append, parseArgsLoop_cons, if_neg hfacts.1,
        if_neg hfacts.2, if_neg (by simp [hcf])]
      exact hrec s

end Katcp

namespace Katcp

/-- C7 counterexample: the line consisting of a request of name a whose
argument section is a single backslash (the backslash is the last byte of the
line) makes the parser raise StopIteration — the Python 2 iterator exhaustion
escaping from the escape-consuming call — and not DclSyntaxError as the claim
states. -/
theorem C7_counterexample :
    parse [63, 97, 32, 92] = .error .stopIteration ∧
      parse [63, 97, 32, 92] ≠ .error .dclSyntax := by
  exact ⟨by decide, by decide⟩

/-- C7 (amended): in the argument section of a line with a well-formed name,
after any run of separator or plain bytes, a backslash whose continuation byte
is not one of the escape keys raises DclSyntaxError; a backslash that is the
last byte of the line instead lets a StopIteration escape (an error, but not
a DclSyntaxError). -/
theorem C7_invalid_escape (t : MType) (name p : List Nat) (b : Nat)
    (rest : List Nat) (hn : wellFormedName name = true)
    (hp : plainTail p = true) (hb : escapeLookup b = none) :
    parse (typeSymbol t :: name ++ 32 :: (p ++ 92 :: b :: rest)) =
        .error .dclSyntax ∧
      parse (typeSymbol t :: name ++ 32 :: (p ++ [92])) =
        .error .stopIteration := by
  match name, hn with
  | n0 :: nrest, hn =>
  obtain ⟨ha, hns, hfne, hfall⟩ := wellFormedName_facts hn
  have hnospace : ∀ c ∈ typeSymbol t :: n0 :: nrest, c ≠ 32 := by
    intro c hc
    rcases List.mem_cons.mp hc with rfl | hc
    · exact typeSymbol_ne_space t
    · exact hns c hc
  obtain ⟨arg', acc', hrec⟩ := parseArgsLoop_plain p hp [] []
  constructor
  · have hpart := partitionSpace_split (typeSymbol t :: n0 :: nrest)
      (p ++ 92 :: b :: rest) hnospace
    rw [show typeSymbol t :: (n0 :: nrest) ++ 32 :: (p ++ 92 :: b :: rest) =
      (typeSymbol t :: n0 :: nrest) ++ 32 :: (p ++ 92 :: b :: rest) from rfl]
    simp only [parse, hpart, symbolType_typeSymbol]
    rw [if_neg hfne, if_neg (not_not_intro hfall), if_neg (not_not_intro ha)]
    simp only [parseArguments, if_pos rfl]
    rw [hrec (92 :: b :: rest), parseArgsLoop_cons]
    simp [hb, Except.map]
  · have hpart := partitionSpace_split (typeSymbol t :: n0 :: nrest)
      (p ++ [92]) hnospace
    rw [show typeSymbol t :: (n0 :: nrest) ++ 32 :: (p ++ [92]) =
      (typeSymbol t :: n0 :: nrest) ++ 32 :: (p ++ [92]) from rfl]
    simp only [parse, hpart, symbolType_typeSymbol]
    rw [if_neg hfne, if_neg (not_not_intro hfall), if_neg (not_not_intro ha)]
    simp only [parseArguments, if_pos rfl]
    rw [hrec [92], parseArgsLoop_cons]
    simp [Except.map]

/-- Witness for the amended C7: a request of name a whose argument section has
one plain byte and then an invalid escape backslash-q errors with
DclSyntaxError, and the same line ending in a lone backslash instead errors
with StopIteration. -/
theorem C7_invalid_escape_witness :
    wellFormedName [97] = true ∧ plainTail [120] = true ∧
      escapeLookup 113 = none ∧
      parse (typeSymbol .request :: [97] ++ 32 :: ([120] ++ 92 :: 113 :: [])) =
        .error .dclSyntax ∧
      parse (typeSymbol .request :: [97] ++ 32 :: ([120] ++ [92])) =
        .error .stopIteration :=
  ⟨by decide, by decide, by decide,
    (C7_invalid_escape .request [97] [120] 113 [] (by decide) (by decide)
      (by decide)).1,
    (C7_invalid_escape .request [97] [120] 113 [] (by decide) (by decide)
      (by decide)).2⟩

/-- C8: Empty-argument boundaries: parsing the line bang-foo-space yields
exactly one empty argument; bang-foo-space-space yields two empty arguments;
bang-foo with the arguments backslash-space, backslash-space and a trailing
space yields the arguments space, space, empty; and a trailing space after
any run of separator or plain bytes always produces a trailing empty
argument. -/
theorem C8_empty_argument_boundaries :
    parse [33, 102, 111, 111, 32] =
        .ok (Message.mk .reply [102, 111, 111] [[]]) ∧
      parse [33, 102, 111, 111, 32, 32] =
        .ok (Message.mk .reply [102, 111, 111] [[], []]) ∧
      parse [33, 102, 111, 111, 32, 92, 32, 32, 92, 32, 32] =
        .ok (Message.mk .reply [102, 111, 111] [[32], [32], []]) ∧
      ∀ q : List Nat, ∃ args : List (List Nat),
        parseArguments true
            ((q.filter (fun c => c = 32 || !isSpecial c)) ++ [32]) =
          .ok (args ++ [[]]) := by
  refine ⟨by decide, by decide, by decide, ?_⟩
  intro q
  have hq : plainTail (q.filter (fun c => c = 32 || !isSpecial c)) = true := by
    apply List.all_eq_true.mpr
    intro c hc
    exact (List.mem_filter.mp hc).2
  obtain ⟨arg', acc', hrec⟩ :=
    parseArgsLoop_plain (q.filter (fun c => c = 32 || !isSpecial c)) hq [] []
  refine ⟨acc' ++ [arg'], ?_⟩
  simp only [parseArguments, if_pos rfl]
  rw [hrec [32], parseArgsLoop_cons]
  simp [parseArgsLoop_nil]

end Katcp

namespace Katcp

theorem alistLookup_eq_none_of_not_mem {κ α : Type} [DecidableEq κ] (k : κ)
    (l : List (κ × α)) (h : k ∉ l.map Prod.fst) : alistLookup k l = none := by
  induction l with
  | nil => rfl
  | cons p r ih =>
    simp only [List.map_cons, List.mem_cons, not_or] at h
    rw [alistLookup, if_neg (fun hc => h.1 hc.symm)]
    exact ih h.2

theorem alistLookup_mem {κ α : Type} [DecidableEq κ] {k : κ}
    {l : List (κ × α)} {v : α} (h : alistLookup k l = some v) : (k, v) ∈ l := by
  induction l with
  | nil => cases h
  | cons p r ih =>
    by_cases hk : p.1 = k
    · rw [alistLookup, if_pos hk] at h
      have hv : p.2 = v := Option.some.inj h
      have : p = (k, v) := Prod.ext hk hv
      rw [← this]
      exact List.mem_cons_self p r
    · rw [alistLookup, if_neg hk] at h
      exact List.mem_cons_of_mem _ (ih h)

theorem alistLookup_erase_self {κ α : Type} [DecidableEq κ] (k : κ)
    (l : List (κ × α)) (h : (l.map Prod.fst).Nodup) :
    alistLookup k (alistErase k l) = none := by
  induction l with
  | nil => rfl
  | cons p r ih =>
    simp only [List.map_cons, List.nodup_cons] at h
    by_cases hk : p.1 = k
    · rw [alistErase, if_pos hk]
      subst hk
      exact alistLookup_eq_none_of_not_mem _ _ h.1
    · rw [alistErase, if_neg hk, alistLookup, if_neg hk]
      exact ih h.2

/-- C4: MID version gating: while no protocol handshake has been received
(`_server_supports_ids` at its initial value), a `use_mid` of None resolves
to false and no MID is attached to the sent message; and for any `use_mid`,
a message carrying an explicit MID while the server does not support MIDs
makes the call raise `KatcpVersionError` before anything is sent. -/
theorem C4_mid_version_gating :
    (∀ nextId : String,
      deviceRequest initServerSupportsIds none none nextId = .ok none) ∧
    (∀ (useMid : Option Bool) (m nextId : String),
      deviceRequest false useMid (some m) nextId = .error .versionError) := by
  constructor
  · intro nid
    rfl
  · intro u m nid
    cases u with
    | none => rfl
    | some b => cases b <;> rfl

/-- C6 counterexample: a persistent socket error on the first write attempt
triggers the disconnect, but `send_message` raises nothing — the caller
gets a silent normal return, contradicting the surfaced-to-the-caller half
of the claim; and a zero-byte send with no preceding socket error raises
`UnboundLocalError` from the failure-logging line before `_disconnect()` is
reached, contradicting the triggers-a-disconnect half. -/
theorem C6_counterexample :
    sendMessage true 5 [.sockErr] =
      { raised := none, sendFailed := true, disconnected := true } ∧
    (sendMessage true 5 [.sockErr]).raised = none ∧
    sendMessage true 5 [.sent 0] =
      { raised := some .unboundLocal, sendFailed := true,
        disconnected := false } ∧
    (sendMessage true 5 [.sent 0]).disconnected = false := by
  exact ⟨by decide, by decide, by decide, by decide⟩

/-- C6 (amended): on a persistent failure in which a socket error was
caught during the call (a non-transient socket error, an EAGAIN after a
socket swap, or a zero-byte send after such a retry), `send_message`
triggers the disconnect but returns normally, surfacing nothing to the
caller; on a zero-byte send with no socket error caught in the call, the
failure-logging line itself raises `UnboundLocalError` — an error reaches
the caller, but the log and the disconnect are skipped; the deliberate
raising path of `send_message` is the not-connected check before the
loop. -/
theorem C6_send_failure (datalen : Nat) (steps : List SendStep) :
    (sendLoop datalen steps 0 false = .failedBound →
      sendMessage true datalen steps =
        { raised := none, sendFailed := true, disconnected := true }) ∧
    (sendLoop datalen steps 0 false = .failedUnbound →
      sendMessage true datalen steps =
        { raised := some .unboundLocal, sendFailed := true,
          disconnected := false }) ∧
    ∀ (dl : Nat) (s : List SendStep),
      sendMessage false dl s =
        { raised := some .clientError, sendFailed := false,
          disconnected := false } := by
  refine ⟨?_, ?_, ?_⟩
  · intro hfail
    simp [sendMessage, hfail]
  · intro hfail
    simp [sendMessage, hfail]
  · intro dl s
    rfl

/-- Witness for the amended C6: the loop fails with a bound `e` on a
persistent socket error and the disconnect happens silently; it fails with
an unbound `e` on an immediate zero-byte send and the `UnboundLocalError`
escapes with no disconnect. -/
theorem C6_send_failure_witness :
    sendLoop 5 [SendStep.sockErr] 0 false = .failedBound ∧
    sendMessage true 5 [SendStep.sockErr] =
      { raised := none, sendFailed := true, disconnected := true } ∧
    sendLoop 5 [SendStep.sent 0] 0 false = .failedUnbound ∧
    sendMessage true 5 [SendStep.sent 0] =
      { raised := some .unboundLocal, sendFailed := true,
        disconnected := false } :=
  ⟨by decide, (C6_send_failure 5 [SendStep.sockErr]).1 (by decide),
   by decide, (C6_send_failure 5 [SendStep.sent 0]).2.1 (by decide)⟩

/-- C3: the synthetic message delivered to `reply_cb` after a synchronous
`KatcpClientError` on send has the request's name and first argument fail,
but its type is REQUEST, not REPLY: the code builds it with
`Message.request(...)` where the spec (which flags this as a bug) prescribes
a Reply. -/
theorem C3_send_failure_synthetic_message :
    (requestClientError ⟨.request, "x", [], none⟩ (some 5) none none
        (some 5) "Client not connected" ⟨[], []⟩).1 =
      (ReplyRoute.callback 5,
        ⟨.request, "x", ["fail", "Client not connected"], none⟩) ∧
    (⟨.request, "x", ["fail", "Client not connected"], none⟩ :
        KMessage).mtype ≠ .reply := by
  exact ⟨by decide, by decide⟩

end Katcp

namespace Katcp

/-- C2 counterexample: with two pending x requests — the older sent with
MID 1, the younger without a MID — a reply for x without a MID falls through
to the base-class handler and leaves the state unchanged, although a pending
request for x whose stored MID is None exists; the claim says that request
would be popped and its `reply_cb` invoked. -/
theorem C2_counterexample :
    (none, (⟨⟨.request, "x", [], none⟩, some 2, none, none, none⟩ :
        PendingEntry)) ∈
      (AsyncState.mk
        [(some "1", ⟨⟨.request, "x", [], some "1"⟩, some 1, none, none, none⟩),
         (none, ⟨⟨.request, "x", [], none⟩, some 2, none, none, none⟩)]
        [("x", [some "1", none])]).queue ∧
    handleReply ⟨.reply, "x", ["ok"], none⟩
        (AsyncState.mk
          [(some "1", ⟨⟨.request, "x", [], some "1"⟩, some 1, none, none,
             none⟩),
           (none, ⟨⟨.request, "x", [], none⟩, some 2, none, none, none⟩)]
          [("x", [some "1", none])]) =
      (.base,
        AsyncState.mk
          [(some "1", ⟨⟨.request, "x", [], some "1"⟩, some 1, none, none,
             none⟩),
           (none, ⟨⟨.request, "x", [], none⟩, some 2, none, none, none⟩)]
          [("x", [some "1", none])]) := by
  exact ⟨by decide, by decide⟩

/-- C2 (amended): a no-MID reply is matched through the head of the
per-name stack only.  When the oldest pending request for the reply's name
carries a MID, the reply falls through to the base-class handler unchanged —
even when a younger pending request for the name has no MID.  When the head
key resolves to the Python value None and the pending table holds an entry
under the None key whose request has no MID, that entry is popped and the
reply routed to its `reply_cb` (base when it has none). -/
theorem C2_legacy_reply_matching (st : AsyncState) (msg : KMessage)
    (hwf : wfAsync st) (hmid : msg.mid = none) :
    (∀ (m : String) (tl : List (Option String)),
      alistLookup msg.name st.idStack = some (some m :: tl) →
        handleReply msg st = (.base, st)) ∧
    (∀ e : PendingEntry,
      msgIdForName (some msg.name) st = none →
      alistLookup none st.queue = some e →
        (handleReply msg st).1 =
          (match e.replyCb with
           | some cb => .callback cb
           | none => .base)) := by
  obtain ⟨mt, nm, args, mid⟩ := msg
  simp only at hmid
  subst hmid
  constructor
  · intro m tl hstack
    have hkey : msgIdForName (some nm) st = some m := by
      simp only [msgIdForName, hstack]
    simp only [handleReply, peekAsyncRequest, hkey]
    cases hq : alistLookup (some m) st.queue with
    | none => rfl
    | some e =>
      have hm : e.request.mid = some m := hwf.1 (some m, e) (alistLookup_mem hq)
      simp [hm]
  · intro e hkey hqe
    have hm : e.request.mid = none := hwf.1 (none, e) (alistLookup_mem hqe)
    simp only [handleReply, peekAsyncRequest, popAsyncRequest, hkey, hqe,
      if_pos hm]
    cases hcb : e.replyCb <;> simp [hcb]

/-- Witness for the amended C2: in a state whose only pending x request was
sent without a MID, a no-MID reply for x is routed to that request's
`reply_cb` (identifier 2) through the theorem's positive case. -/
theorem C2_legacy_reply_matching_witness :
    (handleReply ⟨.reply, "x", ["ok"], none⟩
        (AsyncState.mk
          [(none, ⟨⟨.request, "x", [], none⟩, some 2, none, none, none⟩)]
          [("x", [none])])).1 = .callback 2 := by
  have h := (C2_legacy_reply_matching
    (AsyncState.mk
      [(none, ⟨⟨.request, "x", [], none⟩, some 2, none, none, none⟩)]
      [("x", [none])])
    ⟨.reply, "x", ["ok"], none⟩
    (by constructor
        · intro p hp
          simp only [List.mem_singleton] at hp
          subst hp
          rfl
        · decide)
    rfl).2
    ⟨⟨.request, "x", [], none⟩, some 2, none, none, none⟩
    (by decide) (by decide)
  simpa using h

end Katcp

namespace Katcp

theorem formatF_one_twentieth : formatF (mkRat 1 20) = "0.050000" := by decide

/-- C9 counterexample: for a pending request with MID 7 whose timer interval
is 0.05 seconds, the timeout handler delivers a fail reply whose reason is
the percent-f rendering with six decimal places — which is not the string
the claim states. -/
theorem C9_counterexample :
    (handleTimeout (some "7")
        (AsyncState.mk
          [(some "7", ⟨⟨.request, "x", [], some "7"⟩, some 9, none, none,
             some (mkRat 1 20)⟩)]
          [("x", [some "7"])])).1 =
      some (9, KMessage.reply "x"
        ["fail", "Timed out after 0.050000 seconds"]) ∧
    "Timed out after 0.050000 seconds" ≠ "Timed out after 0.05 seconds" := by
  exact ⟨by decide, by decide⟩

/-- C9 (amended): for every pending request stored under a MID with a
0.05-second timer and a reply callback, the timeout handler pops the entry
and delivers to that callback a REPLY-typed fail message whose reason is
exactly the six-decimal rendering Timed out after 0.050000 seconds; and a
real reply with the same MID arriving afterwards is routed to the
base-class handler without touching the request's callback again. -/
theorem C9_timeout_failure (st : AsyncState) (m : String) (e : PendingEntry)
    (cb : Nat) (hwf : wfAsync st)
    (hq : alistLookup (some m) st.queue = some e)
    (hiv : e.timerInterval = some (mkRat 1 20)) (hcb : e.replyCb = some cb) :
    (handleTimeout (some m) st).1 =
      some (cb, KMessage.reply e.request.name
        ["fail", "Timed out after 0.050000 seconds"]) ∧
    ∀ msg : KMessage, msg.mid = some m →
      handleReply msg ((handleTimeout (some m) st).2) =
        (.base, (handleTimeout (some m) st).2) := by
  have hpop : popAsyncRequest (some m) none st =
      (some e,
        ⟨alistErase (some m) st.queue,
          match alistLookup e.request.name st.idStack with
          | some l =>
            alistInsert e.request.name (listRemoveFirst (some m) l) st.idStack
          | none => st.idStack⟩) := by
    simp only [popAsyncRequest, hq]
  have ht : handleTimeout (some m) st =
      (some (cb, KMessage.reply e.request.name
          ["fail", "Timed out after " ++ formatF (mkRat 1 20) ++ " seconds"]),
        (popAsyncRequest (some m) none st).2) := by
    simp only [handleTimeout, hpop, hiv, doFailCallback, hcb]
  constructor
  · rw [ht]
    simp [formatF_one_twentieth]
  · intro msg hmid
    obtain ⟨mt, nm, args, mid⟩ := msg
    simp only at hmid
    subst hmid
    have hq2 : alistLookup (some m) ((handleTimeout (some m) st).2).queue =
        none := by
      rw [ht, hpop]
      exact alistLookup_erase_self _ _ hwf.2
    simp only [handleReply, popAsyncRequest, hq2]

end Katcp

namespace Katcp

/-- Witness for the amended C9: at a state holding the single pending
request with MID 7, callback 9 and a 0.05-second timer, the theorem applies
and the fail reply with the six-decimal reason is delivered; the late real
reply goes to the base handler. -/
theorem C9_timeout_failure_witness :
    (handleTimeout (some "7")
        (AsyncState.mk
          [(some "7", ⟨⟨.request, "x", [], some "7"⟩, some 9, none, none,
             some (mkRat 1 20)⟩)]
          [("x", [some "7"])])).1 =
      some (9, KMessage.reply "x"
        ["fail", "Timed out after 0.050000 seconds"]) ∧
    handleReply ⟨.reply, "x", ["ok"], some "7"⟩
        ((handleTimeout (some "7")
          (AsyncState.mk
            [(some "7", ⟨⟨.request, "x", [], some "7"⟩, some 9, none, none,
               some (mkRat 1 20)⟩)]
            [("x", [some "7"])])).2) =
      (.base,
        (handleTimeout (some "7")
          (AsyncState.mk
            [(some "7", ⟨⟨.request, "x", [], some "7"⟩, some 9, none, none,
               some (mkRat 1 20)⟩)]
            [("x", [some "7"])])).2) := by
  have h := C9_timeout_failure
    (AsyncState.mk
      [(some "7", ⟨⟨.request, "x", [], some "7"⟩, some 9, none, none,
         some (mkRat 1 20)⟩)]
      [("x", [some "7"])])
    "7" ⟨⟨.request, "x", [], some "7"⟩, some 9, none, none, some (mkRat 1 20)⟩
    9
    (by constructor
        · intro p hp
          simp only [List.mem_singleton] at hp
          subst hp
          rfl
        · decide)
    (by decide) rfl rfl
  exact ⟨h.1, h.2 ⟨.reply, "x", ["ok"], some "7"⟩ rfl⟩

/-- C5 counterexample: a blocking request with MID 1 has received its
matching reply, which cleared `_current_name` but not `_current_msg_id`; a
second reply with the same MID still matches and overwrites the stored
reply, contradicting the claim that no further message matches once the
reply has been handled. -/
theorem C5_counterexample :
    messageMatches
        (blockingHandleReply ⟨some "x", some "1", [], none, false⟩
          ⟨.reply, "x", ["ok"], some "1"⟩).2
        ⟨.reply, "x", ["ok"], some "1"⟩ = true ∧
    (blockingHandleReply
        (blockingHandleReply ⟨some "x", some "1", [], none, false⟩
          ⟨.reply, "x", ["ok"], some "1"⟩).2
        ⟨.reply, "x", ["second"], some "1"⟩).2.currentReply =
      some ⟨.reply, "x", ["second"], some "1"⟩ ∧
    (⟨.reply, "x", ["second"], some "1"⟩ : KMessage) ≠
      ⟨.reply, "x", ["ok"], some "1"⟩ := by
  exact ⟨by decide, by decide, by decide⟩

/-- C5 (amended): straggler exclusion holds for no-MID blocking requests
only: when `_current_msg_id` is None and a matching reply has been handled,
no further reply or inform matches — both are routed to the base-class path
and the stored reply stays.  (For a MID request, a duplicate reply with the
same MID still matches, as the counterexample shows, because the handler
clears only `_current_name`.) -/
theorem C5_straggler_exclusion (st : BlockingState) (msg1 : KMessage)
    (hnomid : st.currentMsgId = none)
    (hmatch : messageMatches st msg1 = true) :
    (∀ msg2 : KMessage,
      messageMatches (blockingHandleReply st msg1).2 msg2 = false) ∧
    (∀ msg2 : KMessage,
      blockingHandleReply (blockingHandleReply st msg1).2 msg2 =
        (false, (blockingHandleReply st msg1).2)) ∧
    (∀ msg2 : KMessage,
      blockingHandleInform (blockingHandleReply st msg1).2 msg2 =
        (false, (blockingHandleReply st msg1).2)) ∧
    (blockingHandleReply st msg1).2.currentReply = some msg1 := by
  have hstep : blockingHandleReply st msg1 =
      (true, { st with currentName := none, currentReply := some msg1,
                       requestEnd := true }) := by
    simp [blockingHandleReply, hmatch]
  have hnm : ∀ msg2 : KMessage,
      messageMatches (blockingHandleReply st msg1).2 msg2 = false := by
    intro msg2
    rw [hstep]
    simp [messageMatches, hnomid]
  refine ⟨hnm, ?_, ?_, ?_⟩
  · intro msg2
    have h2 := hnm msg2
    rw [hstep] at h2 ⊢
    simp [blockingHandleReply, h2]
  · intro msg2
    have h2 := hnm msg2
    rw [hstep] at h2 ⊢
    simp [blockingHandleInform, h2]
  · rw [hstep]

/-- Witness for the amended C5: a no-MID request for x whose matching no-MID
reply has been handled; a second reply for the same name no longer matches
and the handler leaves the state unchanged with the first reply stored. -/
theorem C5_straggler_exclusion_witness :
    messageMatches
        (blockingHandleReply ⟨some "x", none, [], none, false⟩
          ⟨.reply, "x", ["ok"], none⟩).2
        ⟨.reply, "x", ["late"], none⟩ = false ∧
    (blockingHandleReply ⟨some "x", none, [], none, false⟩
        ⟨.reply, "x", ["ok"], none⟩).2.currentReply =
      some ⟨.reply, "x", ["ok"], none⟩ := by
  have h := C5_straggler_exclusion ⟨some "x", none, [], none, false⟩
    ⟨.reply, "x", ["ok"], none⟩ rfl (by decide)
  exact ⟨h.1 ⟨.reply, "x", ["late"], none⟩, h.2.2.2⟩

end Katcp

namespace Katcp

theorem splitNL_cons (b : Nat) (r : List Nat) :
    splitNL (b :: r) =
      (if b = 10 then [] :: splitNL r
       else
         match splitNL r with
         | [] => [[b]]
         | h :: t => (b :: h) :: t) := by
  rw [splitNL.eq_def]

theorem splitNL_shape (l : List Nat) : ∃ h t, splitNL l = h :: t := by
  cases l with
  | nil => exact ⟨[], [], rfl⟩
  | cons b r =>
    rw [splitNL_cons]
    by_cases hb : b = 10
    · exact ⟨[], splitNL r, by rw [if_pos hb]⟩
    · cases hsp : splitNL r with
      | nil => exact ⟨[b], [], by rw [if_neg hb]⟩
      | cons h t => exact ⟨b :: h, t, by rw [if_neg hb]⟩

theorem processLines_single (w last : List Nat) :
    processLines w [last] = ([], w ++ last) := by
  rw [processLines.eq_def]

theorem processLines_cons2 (w l next : List Nat) (t : List (List Nat)) :
    processLines w (l :: next :: t) =
      ((if w ++ l = [] then (processLines [] (next :: t)).1
        else (w ++ l) :: (processLines [] (next :: t)).1),
       (processLines [] (next :: t)).2) := by
  rw [processLines.eq_def]

theorem processLines_consByte (w : List Nat) (b : Nat) (h : List Nat)
    (t : List (List Nat)) :
    processLines w ((b :: h) :: t) = processLines (w ++ [b]) (h :: t) := by
  cases t with
  | nil =>
    rw [processLines_single, processLines_single]
    simp
  | cons next t' =>
    rw [processLines_cons2, processLines_cons2]
    have he : w ++ b :: h = (w ++ [b]) ++ h := by simp
    rw [he, if_neg (by simp)]

theorem foldl_stepByte_acc : ∀ (l : List Nat) (m : List (List Nat))
    (w : List Nat),
    List.foldl stepByte (m, w) l =
      (m ++ (List.foldl stepByte ([], w) l).1,
       (List.foldl stepByte ([], w) l).2) := by
  intro l
  induction l with
  | nil => intro m w; simp
  | cons b l ih =>
    intro m w
    rw [List.foldl_cons, List.foldl_cons]
    by_cases hb : b = 10 ∨ b = 13
    · have h1 : stepByte (m, w) b =
          (m ++ (if w = [] then [] else [w]), []) := by
        simp [stepByte, hb]
      have h2 : stepByte ([], w) b =
          ((if w = [] then [] else [w]), []) := by
        simp [stepByte, hb]
      rw [h1, h2, ih, ih (if w = [] then [] else [w]) []]
      simp
    · have h1 : stepByte (m, w) b = (m, w ++ [b]) := by
        simp [stepByte, hb]
      have h2 : stepByte ([], w) b = ([], w ++ [b]) := by
        simp [stepByte, hb]
      rw [h1, h2, ih]

theorem handleChunk_eq_foldl : ∀ (c w : List Nat),
    handleChunk w c = List.foldl stepByte ([], w) c := by
  intro c
  induction c with
  | nil =>
    intro w
    simp [handleChunk, splitNL, processLines_single]
  | cons b c ih =>
    intro w
    obtain ⟨h, t, hsp⟩ := splitNL_shape (c.map normalizeCR)
    rw [List.foldl_cons]
    by_cases hb : b = 10 ∨ b = 13
    · have hnb : normalizeCR b = 10 := by
        rcases hb with rfl | rfl <;> rfl
      have hstep : stepByte ([], w) b =
          ((if w = [] then [] else [w]), []) := by
        simp [stepByte, hb]
      have hs : splitNL ((b :: c).map normalizeCR) = [] :: h :: t := by
        rw [List.map_cons, splitNL_cons, hnb, hsp]
        simp
      have hl : handleChunk w (b :: c) =
          ((if w = [] then [] else [w]) ++ (handleChunk [] c).1,
           (handleChunk [] c).2) := by
        simp only [handleChunk, hs]
        rw [processLines_cons2, hsp]
        by_cases hw : w = [] <;> simp [hw]
      rw [hl, hstep, foldl_stepByte_acc, ih]
    · have hb10 : b ≠ 10 := fun h10 => hb (Or.inl h10)
      have hb13 : b ≠ 13 := fun h13 => hb (Or.inr h13)
      have hnb : normalizeCR b = b := by
        simp only [normalizeCR]
        rw [if_neg hb13]
      have hstep : stepByte ([], w) b = ([], w ++ [b]) := by
        simp [stepByte, hb]
      have hs : splitNL ((b :: c).map normalizeCR) = (b :: h) :: t := by
        rw [List.map_cons, splitNL_cons, hnb, hsp]
        simp [hb10]
      have hl : handleChunk w (b :: c) = handleChunk (w ++ [b]) c := by
        simp only [handleChunk, hs, hsp]
        exact processLines_consByte w b h t
      rw [hl, hstep, ih]

theorem foldl_stepByte_pair (l : List Nat) (p : List (List Nat) × List Nat) :
    List.foldl stepByte p l =
      (p.1 ++ (List.foldl stepByte ([], p.2) l).1,
       (List.foldl stepByte ([], p.2) l).2) :=
  foldl_stepByte_acc l p.1 p.2

theorem processChunks_eq_foldl : ∀ (cs : List (List Nat)) (w : List Nat),
    processChunks w cs = List.foldl stepByte ([], w) cs.flatten := by
  intro cs
  induction cs with
  | nil => intro w; rfl
  | cons c cs ih =>
    intro w
    rw [processChunks, List.flatten_cons, List.foldl_append,
      ← handleChunk_eq_foldl, foldl_stepByte_pair cs.flatten (handleChunk w c),
      ← ih]

theorem foldl_stepByte_no_empty : ∀ (l : List Nat) (m : List (List Nat))
    (w : List Nat), [] ∉ m → [] ∉ (List.foldl stepByte (m, w) l).1 := by
  intro l
  induction l with
  | nil => intro m w hm; exact hm
  | cons b l ih =>
    intro m w hm
    rw [List.foldl_cons]
    by_cases hb : b = 10 ∨ b = 13
    · have h1 : stepByte (m, w) b =
          (m ++ (if w = [] then [] else [w]), []) := by
        simp [stepByte, hb]
      rw [h1]
      apply ih
      intro hmem
      rcases List.mem_append.mp hmem with hmem | hmem
      · exact hm hmem
      · by_cases hw : w = []
        · simp [hw] at hmem
        · simp only [if_neg hw, List.mem_singleton] at hmem
          exact hw hmem.symm
    · have h1 : stepByte (m, w) b = (m, w ++ [b]) := by
        simp [stepByte, hb]
      rw [h1]
      exact ih m (w ++ [b]) hm

theorem foldl_stepByte_plain : ∀ (l : List Nat) (m : List (List Nat))
    (w : List Nat), (∀ b ∈ l, ¬(b = 10 ∨ b = 13)) →
      List.foldl stepByte (m, w) l = (m, w ++ l) := by
  intro l
  induction l with
  | nil => intro m w _; simp
  | cons b l ih =>
    intro m w hl
    rw [List.foldl_cons]
    have h1 : stepByte (m, w) b = (m, w ++ [b]) := by
      simp [stepByte, hl b (by simp)]
    rw [h1, ih m (w ++ [b]) (fun x hx => hl x (by simp [hx]))]
    simp

/-- C10: Framer chunking invariance: feeding any decomposition of a byte
string into consecutive chunks through `_handle_chunk` yields the same
sequence of handled lines and the same carry-over buffer as feeding it
whole; empty lines are never handed to the parser; and a chunk without any
LF or CR byte produces no handled line — it is appended whole to the
carry-over buffer, so bytes after the last terminator are never parsed. -/
theorem C10_framer_chunking (waiting : List Nat) (chunks : List (List Nat)) :
    processChunks waiting chunks = handleChunk waiting chunks.flatten ∧
    [] ∉ (processChunks waiting chunks).1 ∧
    ∀ c : List Nat,
      handleChunk waiting (c.filter (fun b => !(b = 10 || b = 13))) =
        ([], waiting ++ c.filter (fun b => !(b = 10 || b = 13))) := by
  refine ⟨?_, ?_, ?_⟩
  · rw [processChunks_eq_foldl, handleChunk_eq_foldl]
  · rw [processChunks_eq_foldl]
    exact foldl_stepByte_no_empty _ _ _ (by simp)
  · intro c
    rw [handleChunk_eq_foldl]
    apply foldl_stepByte_plain
    intro b hb
    have := (List.mem_filter.mp hb).2
    simp only [Bool.not_eq_eq_eq_not, Bool.not_true, decide_eq_false_iff_not] at this
    simpa using this

end Katcp
